import Mathlib

/-!
Verification of the adaptive progress poller implemented in
static/js/certificado/evento_detail.js (functions startPolling /
checkProgress and startIndividualPolling, with module-global state
lastStateHash, noChangeCount, currentPollInterval and the shared
pollInterval timer handle). The JavaScript is embedded shallowly:
the .then handler of one poll becomes a pure function on the poller
state, a run of the loop is a fold over the list of resolved responses,
and the recurring timer is a boolean flag that gates whether a tick
fires at all.
-/

namespace EventoDetail

/-- A parsed job-status response as the polling endpoint returns it:
the fields read by checkProgress (success, state_hash, is_complete,
status, progress, exitosos, fallidos, total). state_hash = none models
a JSON null or absent hash, matching the initial lastStateHash = null. -/
structure ProgressData where
  success : Bool
  state_hash : Option String
  is_complete : Bool
  status : String
  progress : Nat
  exitosos : Nat
  fallidos : Nat
  total : Nat
deriving DecidableEq

/-- The module-global mutable state of the adaptive poller: lastStateHash,
noChangeCount, currentPollInterval, and whether the recurring pollInterval
timer is currently scheduled. -/
structure PollState where
  lastStateHash : Option String
  noChangeCount : Nat
  currentPollInterval : Nat
  timerActive : Bool
deriving DecidableEq

/-- Result of running the .then handler on one resolved response: the new
poller state, the updateProgressUI invocations made (the onUpdate side of
the contract), and whether the is_complete completion block ran (the
onComplete side: clearInterval, overlay message, scheduled reload). -/
structure CycleResult where
  state : PollState
  updates : List ProgressData
  completed : Bool
deriving DecidableEq

/-- The backoff computation of the no-change branch: newInterval as a
function of the already-incremented noChangeCount, defaulting to the
current interval below the first threshold. -/
def backoffInterval (n : Nat) (current : Nat) : Nat :=
  if n ≥ 10 then 5000
  else if n ≥ 5 then 3000
  else if n ≥ 3 then 2000
  else current

/-- Tail of the .then handler, shared by both branches: if data.is_complete
then clearInterval runs (the timer is descheduled) and the completion block
fires; otherwise the cycle ends with the state computed so far. -/
def finishCycle (s1 : PollState) (ups : List ProgressData) (data : ProgressData) : CycleResult :=
  if data.is_complete then
    { state := { s1 with timerActive := false }, updates := ups, completed := true }
  else
    { state := s1, updates := ups, completed := false }

/-- The HAY CAMBIOS branch of the handler: reset noChangeCount to 0, reset
the interval to 1000, store the new hash, and when the previous interval
differed from 1000 run clearInterval plus setInterval, which leaves the
timer scheduled regardless of whether it was before. -/
def changeStep (s : PollState) (data : ProgressData) : PollState :=
  if s.currentPollInterval ≠ 1000 then
    { lastStateHash := data.state_hash, noChangeCount := 0,
      currentPollInterval := 1000, timerActive := true }
  else
    { lastStateHash := data.state_hash, noChangeCount := 0,
      currentPollInterval := 1000, timerActive := s.timerActive }

/-- The NO HAY CAMBIOS branch of the handler: increment noChangeCount,
compute the backoff interval, and when it differs from the current one
adopt it and run clearInterval plus setInterval (rescheduling the timer). -/
def noChangeStep (s : PollState) : PollState :=
  if backoffInterval (s.noChangeCount + 1) s.currentPollInterval ≠ s.currentPollInterval then
    { s with noChangeCount := s.noChangeCount + 1,
             currentPollInterval := backoffInterval (s.noChangeCount + 1) s.currentPollInterval,
             timerActive := true }
  else
    { s with noChangeCount := s.noChangeCount + 1 }

/-- The .then handler of checkProgress inside startPolling, acting on one
resolved response. Faithful to the source: nothing outside
if (data.success) happens; hasChanged is lastStateHash !== data.state_hash;
the change branch runs changeStep and calls updateProgressUI with the data;
the no-change branch runs noChangeStep and calls nothing; finally the
is_complete check runs after that bookkeeping. -/
def checkProgress (s : PollState) (data : ProgressData) : CycleResult :=
  if data.success then
    if s.lastStateHash ≠ data.state_hash then
      finishCycle (changeStep s data) [data] data
    else
      finishCycle (noChangeStep s) [] data
  else
    { state := s, updates := [], completed := false }

/-- One resolved poll: ok d is a response whose JSON parsed, err is a
transport or parse failure (the fetch promise rejected). -/
inductive PollInput where
  | ok (d : ProgressData)
  | err
deriving DecidableEq

/-- Effect of one resolved poll on the poller: a successful fetch runs the
.then handler, a rejected fetch runs only the .catch logger, which touches
no state and invokes no callback. -/
def checkProgressCycle (s : PollState) : PollInput → CycleResult
  | PollInput.ok d => checkProgress s d
  | PollInput.err => { state := s, updates := [], completed := false }

/-- The synchronous body of startPolling: any existing timer named by the
shared handle is cleared, the smart-polling globals are reset
(lastStateHash = null, noChangeCount = 0, currentPollInterval = 1000), the
first query is issued immediately, and the recurring timer is scheduled at
the initial 1000 ms. The previous poller state is discarded wholesale. -/
def startPolling (_s : PollState) : PollState :=
  { lastStateHash := none, noChangeCount := 0, currentPollInterval := 1000,
    timerActive := true }

/-- Poller state right after startPolling returns, before any response has
resolved. -/
def initialPollState : PollState := startPolling ⟨none, 0, 1000, false⟩

/-- Observable log of one run of the poll loop: final state, all
updateProgressUI invocations in order, how many times the completion block
ran, and for each tick that fired, the interval in effect when it fired and
the interval right after its handler ran. -/
structure RunLog where
  final : PollState
  updates : List ProgressData
  completions : Nat
  intervalsAt : List Nat
  intervalsAfter : List Nat
deriving DecidableEq

/-- Run of the poll loop over a sequence of resolved responses in program
order: a tick fires (and its response is processed) only while the
recurring timer is scheduled; once clearInterval has run, no further tick
issues a request, so the remaining responses never materialize. -/
def runTrace (s : PollState) : List PollInput → RunLog
  | [] => { final := s, updates := [], completions := 0,
            intervalsAt := [], intervalsAfter := [] }
  | i :: rest =>
    if s.timerActive then
      let r := checkProgressCycle s i
      let acc := runTrace r.state rest
      { final := acc.final,
        updates := r.updates ++ acc.updates,
        completions := (if r.completed then 1 else 0) + acc.completions,
        intervalsAt := s.currentPollInterval :: acc.intervalsAt,
        intervalsAfter := r.state.currentPollInterval :: acc.intervalsAfter }
    else
      runTrace s rest

/-- Closed form of the interval the ladder assigns to a given no-change
streak, counting from the reset value 1000 that every observed change
restores. -/
def ladderInterval (n : Nat) : Nat :=
  if n ≥ 10 then 5000
  else if n ≥ 5 then 3000
  else if n ≥ 3 then 2000
  else 1000

/-- Invariant tying the two smart-polling counters together: the current
interval is exactly the ladder value of the current no-change streak. -/
def ladderInv (s : PollState) : Prop :=
  s.currentPollInterval = ladderInterval s.noChangeCount

lemma ladderInterval_mono {n m : Nat} (h : n ≤ m) :
    ladderInterval n ≤ ladderInterval m := by
  unfold ladderInterval
  split_ifs <;> omega

lemma ladderInterval_mem (n : Nat) :
    ladderInterval n = 1000 ∨ ladderInterval n = 2000 ∨
    ladderInterval n = 3000 ∨ ladderInterval n = 5000 := by
  unfold ladderInterval
  split_ifs <;> simp

lemma backoffInterval_ladder (n : Nat) :
    backoffInterval (n + 1) (ladderInterval n) = ladderInterval (n + 1) := by
  unfold backoffInterval ladderInterval
  split_ifs <;> omega

lemma finishCycle_count (s1 : PollState) (ups : List ProgressData) (d : ProgressData) :
    (finishCycle s1 ups d).state.noChangeCount = s1.noChangeCount := by
  unfold finishCycle; split_ifs <;> rfl

lemma finishCycle_interval (s1 : PollState) (ups : List ProgressData) (d : ProgressData) :
    (finishCycle s1 ups d).state.currentPollInterval = s1.currentPollInterval := by
  unfold finishCycle; split_ifs <;> rfl

lemma finishCycle_hash (s1 : PollState) (ups : List ProgressData) (d : ProgressData) :
    (finishCycle s1 ups d).state.lastStateHash = s1.lastStateHash := by
  unfold finishCycle; split_ifs <;> rfl

lemma finishCycle_updates (s1 : PollState) (ups : List ProgressData) (d : ProgressData) :
    (finishCycle s1 ups d).updates = ups := by
  unfold finishCycle; split_ifs <;> rfl

lemma finishCycle_completed (s1 : PollState) (ups : List ProgressData) (d : ProgressData) :
    (finishCycle s1 ups d).completed = d.is_complete := by
  unfold finishCycle
  split_ifs with h
  · exact h.symm
  · simpa using (Bool.not_eq_true _).mp h |>.symm

lemma changeStep_fields (s : PollState) (d : ProgressData) :
    (changeStep s d).noChangeCount = 0 ∧
    (changeStep s d).currentPollInterval = 1000 ∧
    (changeStep s d).lastStateHash = d.state_hash := by
  unfold changeStep; split_ifs <;> exact ⟨rfl, rfl, rfl⟩

lemma noChangeStep_count (s : PollState) :
    (noChangeStep s).noChangeCount = s.noChangeCount + 1 := by
  unfold noChangeStep; split_ifs <;> rfl

lemma noChangeStep_interval (s : PollState) :
    (noChangeStep s).currentPollInterval =
      backoffInterval (s.noChangeCount + 1) s.currentPollInterval := by
  unfold noChangeStep
  split_ifs with h
  · rfl
  · exact (not_ne_iff.mp h).symm

lemma noChangeStep_hash (s : PollState) :
    (noChangeStep s).lastStateHash = s.lastStateHash := by
  unfold noChangeStep; split_ifs <;> rfl

lemma ladderInv_checkProgress {s : PollState} (d : ProgressData)
    (h : ladderInv s) : ladderInv (checkProgress s d).state := by
  unfold ladderInv at h ⊢
  unfold checkProgress
  split_ifs with hs hch
  · rw [finishCycle_count, finishCycle_interval, (changeStep_fields s d).1,
      (changeStep_fields s d).2.1]
    rfl
  · rw [finishCycle_count, finishCycle_interval, noChangeStep_count,
      noChangeStep_interval, h, backoffInterval_ladder]
  · exact h

lemma ladderInv_cycle {s : PollState} (i : PollInput)
    (h : ladderInv s) : ladderInv (checkProgressCycle s i).state := by
  cases i with
  | ok d => exact ladderInv_checkProgress d h
  | err => exact h

lemma ladderInv_runTrace {s : PollState} (inputs : List PollInput)
    (h : ladderInv s) : ladderInv (runTrace s inputs).final := by
  induction inputs generalizing s with
  | nil => exact h
  | cons i rest ih =>
    unfold runTrace
    split
    · exact ih (ladderInv_cycle i h)
    · exact ih h

lemma ladderInv_initial : ladderInv initialPollState := rfl

lemma finishCycle_timer (s1 : PollState) (ups : List ProgressData) (d : ProgressData) :
    (finishCycle s1 ups d).state.timerActive =
      if d.is_complete then false else s1.timerActive := by
  unfold finishCycle; split_ifs <;> rfl

lemma changeStep_timer_of_ne {s : PollState} (d : ProgressData)
    (h : s.currentPollInterval ≠ 1000) : (changeStep s d).timerActive = true := by
  unfold changeStep; rw [if_pos h]

lemma changeStep_timer_mono {s : PollState} (d : ProgressData)
    (h : s.timerActive = true) : (changeStep s d).timerActive = true := by
  unfold changeStep; split_ifs <;> simp [h]

lemma noChangeStep_timer_mono {s : PollState}
    (h : s.timerActive = true) : (noChangeStep s).timerActive = true := by
  unfold noChangeStep; split_ifs <;> simp [h]

/-- Which resolved polls make the completion block run: a successful
response carrying is_complete. -/
def terminalSuccess : PollInput → Bool
  | PollInput.ok d => d.success && d.is_complete
  | PollInput.err => false

lemma cycle_completed (s : PollState) (i : PollInput) :
    (checkProgressCycle s i).completed = terminalSuccess i := by
  cases i with
  | err => rfl
  | ok d =>
    show (checkProgress s d).completed = (d.success && d.is_complete)
    unfold checkProgress
    split_ifs with hs hch
    · rw [finishCycle_completed]; simp [hs]
    · rw [finishCycle_completed]; simp [hs]
    · have : d.success = false := by simpa using hs
      simp [this]

lemma completed_timer_off (s : PollState) (i : PollInput)
    (hc : (checkProgressCycle s i).completed = true) :
    (checkProgressCycle s i).state.timerActive = false := by
  cases i with
  | err => exact absurd hc (by simp [checkProgressCycle])
  | ok d =>
    have hterm : (d.success && d.is_complete) = true := by
      rw [← show terminalSuccess (PollInput.ok d) = (d.success && d.is_complete) from rfl,
        ← cycle_completed s (PollInput.ok d)]
      exact hc
    rw [Bool.and_eq_true] at hterm
    show (checkProgress s d).state.timerActive = false
    unfold checkProgress
    split_ifs with hs hch
    · rw [finishCycle_timer, if_pos hterm.2]
    · rw [finishCycle_timer, if_pos hterm.2]
    · exact absurd hterm.1 hs

lemma not_completed_timer_on (s : PollState) (i : PollInput)
    (h : s.timerActive = true)
    (hc : (checkProgressCycle s i).completed = false) :
    (checkProgressCycle s i).state.timerActive = true := by
  cases i with
  | err => exact h
  | ok d =>
    show (checkProgress s d).state.timerActive = true
    unfold checkProgress
    split_ifs with hs hch
    · have hic : d.is_complete = false := by
        have hcc := cycle_completed s (PollInput.ok d)
        rw [hc] at hcc
        simpa [terminalSuccess, hs] using hcc.symm
      rw [finishCycle_timer, if_neg (by simp [hic])]
      exact changeStep_timer_mono d h
    · have hic : d.is_complete = false := by
        have hcc := cycle_completed s (PollInput.ok d)
        rw [hc] at hcc
        simpa [terminalSuccess, hs] using hcc.symm
      rw [finishCycle_timer, if_neg (by simp [hic])]
      exact noChangeStep_timer_mono h
    · exact h

lemma runTrace_inactive (s : PollState) (h : s.timerActive = false)
    (inputs : List PollInput) :
    runTrace s inputs =
      { final := s, updates := [], completions := 0,
        intervalsAt := [], intervalsAfter := [] } := by
  induction inputs with
  | nil => rfl
  | cons i rest ih =>
    unfold runTrace
    rw [if_neg (by simp [h])]
    exact ih

lemma runTrace_completions (s : PollState) (inputs : List PollInput)
    (h : s.timerActive = true) :
    (runTrace s inputs).completions =
      (if inputs.any terminalSuccess then 1 else 0) := by
  induction inputs generalizing s with
  | nil => rfl
  | cons i rest ih =>
    unfold runTrace
    rw [if_pos h]
    dsimp only
    by_cases hc : (checkProgressCycle s i).completed = true
    · rw [runTrace_inactive _ (completed_timer_off s i hc) rest]
      have hterm : terminalSuccess i = true := by rw [← cycle_completed s i]; exact hc
      simp [hc, hterm]
    · have hc' : (checkProgressCycle s i).completed = false := by
        simpa using hc
      have hterm : terminalSuccess i = false := by rw [← cycle_completed s i]; exact hc'
      rw [ih _ (not_completed_timer_on s i h hc')]
      simp [hc', hterm]

lemma any_congr_mem {l : List PollInput} {f g : PollInput → Bool}
    (h : ∀ i ∈ l, f i = g i) : l.any f = l.any g := by
  induction l with
  | nil => rfl
  | cons a t ih =>
    simp only [List.any_cons, h a (by simp),
      ih (fun i hi => h i (List.mem_cons_of_mem a hi))]

/-- Terminal job statuses in the data model: completed or failed. -/
def isTerminalStatus (st : String) : Bool := st == "completed" || st == "failed"

/-- Which resolved polls report a terminal job status: a successful
response whose status is completed or failed. -/
def terminalStatusPoll : PollInput → Bool
  | PollInput.ok d => d.success && isTerminalStatus d.status
  | PollInput.err => false

/-- A server response is coherent when its is_complete flag agrees with its
status being terminal, as the data model requires of JobProgress. -/
def coherentResponse (d : ProgressData) : Prop :=
  d.is_complete = isTerminalStatus d.status

/-- A response with hash h reporting an in-flight processing job. -/
def respA (h : String) : ProgressData :=
  { success := true, state_hash := some h, is_complete := false,
    status := "processing", progress := 50, exitosos := 1, fallidos := 0,
    total := 2 }

/-- Scenario A of the spec: fingerprints A, A, A, A, B with status
processing throughout. -/
def scenarioA : List PollInput :=
  [PollInput.ok (respA "A"), PollInput.ok (respA "A"), PollInput.ok (respA "A"),
   PollInput.ok (respA "A"), PollInput.ok (respA "B")]

/-- A mid-run poller state with an unchanged streak of 2 at the fast
interval, hash A stored, timer scheduled. -/
def steadyState : PollState :=
  { lastStateHash := some "A", noChangeCount := 2, currentPollInterval := 1000,
    timerActive := true }

/-- A successful processing response whose hash matches steadyState. -/
def unchangedResp : ProgressData := respA "A"

/-- A terminal response as the very first poll would deliver it. -/
def firstTerminalResp : ProgressData :=
  { success := true, state_hash := some "F", is_complete := true,
    status := "completed", progress := 100, exitosos := 2, fallidos := 0,
    total := 2 }

/-- A response whose JSON parsed but whose success flag is false, carrying
is_complete and a terminal status. -/
def failedFlagResp : ProgressData :=
  { success := false, state_hash := some "Z", is_complete := true,
    status := "completed", progress := 100, exitosos := 2, fallidos := 0,
    total := 2 }

/-- C1: on a poll cycle whose response parses with success true and whose
fingerprint equals the stored lastFingerprint, noChangeStreak is
incremented by exactly 1, and the interval becomes 5000 when the new
streak is at least 10, else 3000 when at least 5, else 2000 when at least
3, and is otherwise left unchanged. -/
theorem noChange_increments_streak_and_escalates (s : PollState) (d : ProgressData)
    (hs : d.success = true) (hf : s.lastStateHash = d.state_hash) :
    (checkProgress s d).state.noChangeCount = s.noChangeCount + 1 ∧
    (checkProgress s d).state.currentPollInterval =
      (if s.noChangeCount + 1 ≥ 10 then 5000
       else if s.noChangeCount + 1 ≥ 5 then 3000
       else if s.noChangeCount + 1 ≥ 3 then 2000
       else s.currentPollInterval) := by
  unfold checkProgress
  rw [if_pos hs, if_neg (by simp [hf])]
  refine ⟨by rw [finishCycle_count, noChangeStep_count], ?_⟩
  rw [finishCycle_interval, noChangeStep_interval]
  rfl

/-- Witness for C1 at a concrete state and response: streak 2 becomes 3
and the interval escalates from 1000 to 2000. -/
theorem noChange_increments_streak_and_escalates_witness :
    (checkProgress steadyState unchangedResp).state.noChangeCount = 3 ∧
    (checkProgress steadyState unchangedResp).state.currentPollInterval = 2000 := by
  have h := noChange_increments_streak_and_escalates steadyState unchangedResp rfl rfl
  exact ⟨h.1, by rw [h.2]; decide⟩

/-- C3: on a successful poll whose fingerprint differs from the stored
lastFingerprint, the poller resets noChangeStreak to 0, resets the interval
to 1000, invokes onUpdate exactly once with the parsed progress, and stores
the new fingerprint; and when this changes the interval (the previous one
was not 1000) on a non-terminal response, the recurring timer has been torn
down and rescheduled. -/
theorem change_resets_and_notifies (s : PollState) (d : ProgressData)
    (hs : d.success = true) (hf : s.lastStateHash ≠ d.state_hash) :
    (checkProgress s d).state.noChangeCount = 0 ∧
    (checkProgress s d).state.currentPollInterval = 1000 ∧
    (checkProgress s d).updates = [d] ∧
    (checkProgress s d).state.lastStateHash = d.state_hash ∧
    (d.is_complete = false → s.currentPollInterval ≠ 1000 →
      (checkProgress s d).state.timerActive = true) := by
  unfold checkProgress
  rw [if_pos hs, if_pos hf]
  refine ⟨by rw [finishCycle_count, (changeStep_fields s d).1],
    by rw [finishCycle_interval, (changeStep_fields s d).2.1],
    finishCycle_updates _ _ _,
    by rw [finishCycle_hash, (changeStep_fields s d).2.2], ?_⟩
  intro hic hne
  rw [finishCycle_timer, if_neg (by simp [hic]), changeStep_timer_of_ne d hne]

/-- Witness for C3 at a concrete state: a changed fingerprint at interval
2000 resets the counters, notifies once, stores the hash, and reschedules
the timer. -/
theorem change_resets_and_notifies_witness :
    (checkProgress ⟨some "A", 3, 2000, true⟩ (respA "B")).state.noChangeCount = 0 ∧
    (checkProgress ⟨some "A", 3, 2000, true⟩ (respA "B")).state.currentPollInterval = 1000 ∧
    (checkProgress ⟨some "A", 3, 2000, true⟩ (respA "B")).updates = [respA "B"] ∧
    (checkProgress ⟨some "A", 3, 2000, true⟩ (respA "B")).state.lastStateHash = some "B" ∧
    (checkProgress ⟨some "A", 3, 2000, true⟩ (respA "B")).state.timerActive = true := by
  have h := change_resets_and_notifies ⟨some "A", 3, 2000, true⟩ (respA "B")
    rfl (by decide)
  exact ⟨h.1, h.2.1, h.2.2.1, h.2.2.2.1, h.2.2.2.2 rfl (by decide)⟩

/-- C10: a response that parses but carries success false changes no poller
state and invokes no callback, even when it also carries is_complete true:
the completion handling is inside the success check and does not fire. -/
theorem unsuccessful_response_noop (s : PollState) (d : ProgressData)
    (hs : d.success = false) :
    checkProgress s d = { state := s, updates := [], completed := false } := by
  unfold checkProgress
  rw [if_neg (by simp [hs])]

/-- Witness for C10: a success false response that even carries
is_complete true and a terminal status leaves the initial state untouched
and fires nothing. -/
theorem unsuccessful_response_noop_witness :
    checkProgress initialPollState failedFlagResp =
      { state := initialPollState, updates := [], completed := false } :=
  unsuccessful_response_noop initialPollState failedFlagResp rfl

/-- C2: over any run of the adaptive poller from a fresh start, the current
interval is a function (the ladder closed form) of the consecutive
no-change count, hence non-decreasing in it between observed changes; it
always lies in the ladder 1000, 2000, 3000, 5000; one further no-change
poll never decreases it; and a poll observing a change resets it to
1000. -/
theorem intervalMs_ladder_monotone_reset (inputs : List PollInput) :
    ((runTrace initialPollState inputs).final.currentPollInterval =
      ladderInterval (runTrace initialPollState inputs).final.noChangeCount) ∧
    ((runTrace initialPollState inputs).final.currentPollInterval = 1000 ∨
     (runTrace initialPollState inputs).final.currentPollInterval = 2000 ∨
     (runTrace initialPollState inputs).final.currentPollInterval = 3000 ∨
     (runTrace initialPollState inputs).final.currentPollInterval = 5000) ∧
    (∀ n m : Nat, n ≤ m → ladderInterval n ≤ ladderInterval m) ∧
    (∀ d : ProgressData, d.success = true →
      (runTrace initialPollState inputs).final.lastStateHash = d.state_hash →
      (runTrace initialPollState inputs).final.currentPollInterval ≤
        (checkProgress (runTrace initialPollState inputs).final d).state.currentPollInterval) ∧
    (∀ d : ProgressData, d.success = true →
      (runTrace initialPollState inputs).final.lastStateHash ≠ d.state_hash →
      (checkProgress (runTrace initialPollState inputs).final d).state.currentPollInterval
        = 1000) := by
  have hinv : ladderInv (runTrace initialPollState inputs).final :=
    ladderInv_runTrace inputs ladderInv_initial
  unfold ladderInv at hinv
  refine ⟨hinv, by rw [hinv]; exact ladderInterval_mem _,
    fun n m h => ladderInterval_mono h, ?_, ?_⟩
  · intro d hs hf
    have h1 : (checkProgress (runTrace initialPollState inputs).final d).state.currentPollInterval =
        backoffInterval ((runTrace initialPollState inputs).final.noChangeCount + 1)
          (runTrace initialPollState inputs).final.currentPollInterval := by
      unfold checkProgress
      rw [if_pos hs, if_neg (by simp [hf]), finishCycle_interval, noChangeStep_interval]
    rw [h1, hinv, backoffInterval_ladder]
    exact ladderInterval_mono (Nat.le_succ _)
  · intro d hs hf
    unfold checkProgress
    rw [if_pos hs, if_pos hf, finishCycle_interval, (changeStep_fields _ d).2.1]

/-- Witness for C2 at the empty run and a concrete changed response: the
fresh interval is 1000, in the ladder, and a change keeps it at 1000. -/
theorem intervalMs_ladder_monotone_reset_witness :
    ((runTrace initialPollState []).final.currentPollInterval =
      ladderInterval (runTrace initialPollState []).final.noChangeCount) ∧
    (checkProgress (runTrace initialPollState []).final (respA "A")).state.currentPollInterval
      = 1000 := by
  have h := intervalMs_ladder_monotone_reset []
  exact ⟨h.1, h.2.2.2.2 (respA "A") rfl (by decide)⟩

/-- C5 counterexample: on fingerprints A, A, A, A, B with status
processing throughout, the intervals the code produces are not the
1000, 1000, 2000, 2000, 1000 the claim states, neither read as the
interval in effect when each tick fired nor as the interval right after
each handler ran. -/
theorem scenarioA_claimed_intervals_false :
    (runTrace initialPollState scenarioA).intervalsAt ≠ [1000, 1000, 2000, 2000, 1000] ∧
    (runTrace initialPollState scenarioA).intervalsAfter ≠ [1000, 1000, 2000, 2000, 1000] := by
  decide

/-- C5 amended: on fingerprints A, A, A, A, B with status processing
throughout, the intervals in effect at the five ticks are 1000, 1000,
1000, 1000, 2000, and the intervals right after each handler are 1000,
1000, 1000, 2000, 1000: the ladder escalates to 2000 when the streak
reaches 3 at tick 4, and the change observed at tick 5 resets the
interval to 1000. -/
theorem scenarioA_intervals_actual :
    (runTrace initialPollState scenarioA).intervalsAt = [1000, 1000, 1000, 1000, 2000] ∧
    (runTrace initialPollState scenarioA).intervalsAfter = [1000, 1000, 1000, 2000, 1000] := by
  decide

/-- C4: for a run from a fresh start over coherent responses, the
completion block runs exactly once when some poll reports a successful
terminal status and never otherwise; and when the very first poll already
reports a terminal status with a real fingerprint, exactly one onUpdate
fires, exactly one onComplete fires, and the timer is descheduled so no
further poll cycle runs. -/
theorem terminal_poll_completes_once (inputs : List PollInput)
    (hcoh : ∀ d : ProgressData, PollInput.ok d ∈ inputs → coherentResponse d) :
    ((runTrace initialPollState inputs).completions =
      if inputs.any terminalStatusPoll then 1 else 0) ∧
    (∀ d rest, inputs = PollInput.ok d :: rest → d.success = true →
      isTerminalStatus d.status = true → d.state_hash ≠ none →
      (runTrace initialPollState inputs).updates = [d] ∧
      (runTrace initialPollState inputs).completions = 1 ∧
      (runTrace initialPollState inputs).final.timerActive = false) := by
  have hany : inputs.any terminalSuccess = inputs.any terminalStatusPoll := by
    refine any_congr_mem (fun i hi => ?_)
    cases i with
    | err => rfl
    | ok d =>
      have := hcoh d hi
      unfold coherentResponse at this
      show (d.success && d.is_complete) = (d.success && isTerminalStatus d.status)
      rw [this]
  have hcompl : (runTrace initialPollState inputs).completions =
      if inputs.any terminalSuccess then 1 else 0 :=
    runTrace_completions initialPollState inputs rfl
  refine ⟨by rw [hcompl, hany], ?_⟩
  intro d rest hin hs hterm hhash
  subst hin
  have hic : d.is_complete = true := by
    rw [hcoh d (by simp), hterm]
  have hch : initialPollState.lastStateHash ≠ d.state_hash := by
    show (none : Option String) ≠ d.state_hash
    exact fun h => hhash h.symm
  have hupd : (checkProgress initialPollState d).updates = [d] := by
    unfold checkProgress
    rw [if_pos hs, if_pos hch, finishCycle_updates]
  have hcompleted : (checkProgress initialPollState d).completed = true := by
    unfold checkProgress
    rw [if_pos hs, if_pos hch, finishCycle_completed, hic]
  have htimer : (checkProgress initialPollState d).state.timerActive = false :=
    completed_timer_off initialPollState (PollInput.ok d) hcompleted
  have hrest := runTrace_inactive (checkProgress initialPollState d).state htimer rest
  refine ⟨?_, ?_, ?_⟩
  · show (runTrace initialPollState (PollInput.ok d :: rest)).updates = [d]
    unfold runTrace
    rw [if_pos (show initialPollState.timerActive = true from rfl)]
    dsimp only
    show (checkProgress initialPollState d).updates ++
      (runTrace (checkProgress initialPollState d).state rest).updates = [d]
    rw [hrest, hupd]
    rfl
  · rw [hcompl]
    simp [List.any_cons, terminalSuccess, hs, hic]
  · show (runTrace initialPollState (PollInput.ok d :: rest)).final.timerActive = false
    unfold runTrace
    rw [if_pos (show initialPollState.timerActive = true from rfl)]
    dsimp only
    show (runTrace (checkProgress initialPollState d).state rest).final.timerActive = false
    rw [hrest]
    exact htimer

/-- Witness for C4: a single first poll that reports status completed with
is_complete true yields exactly one onUpdate, exactly one onComplete, and a
descheduled timer. -/
theorem terminal_poll_completes_once_witness :
    (runTrace initialPollState [PollInput.ok firstTerminalResp]).updates = [firstTerminalResp] ∧
    (runTrace initialPollState [PollInput.ok firstTerminalResp]).completions = 1 ∧
    (runTrace initialPollState [PollInput.ok firstTerminalResp]).final.timerActive = false := by
  have h := terminal_poll_completes_once [PollInput.ok firstTerminalResp]
    (by
      intro d hd
      simp at hd
      subst hd
      exact (by decide :
        firstTerminalResp.is_complete = isTerminalStatus firstTerminalResp.status))
  exact h.2 firstTerminalResp [] rfl rfl (by decide) (by decide)

/-- A poller state after stop: hash A stored, streak 1, fast interval,
timer no longer scheduled. -/
def stoppedState : PollState :=
  { lastStateHash := some "A", noChangeCount := 1, currentPollInterval := 1000,
    timerActive := false }

/-- A stopped poller state that had escalated to the 2000 ms interval. -/
def stoppedSlowState : PollState :=
  { lastStateHash := some "A", noChangeCount := 3, currentPollInterval := 2000,
    timerActive := false }

/-- C6 counterexample: with the timer already cleared (the only stop
mechanism the code has), a response that was in flight still runs the full
handler when it resolves: it fires onUpdate and changes the poller state,
contradicting the claim that a late-resolving response triggers zero
callback invocations and no state change. -/
theorem stop_does_not_suppress_inflight :
    (checkProgress stoppedState (respA "B")).updates ≠ [] ∧
    (checkProgress stoppedState (respA "B")).state ≠ stoppedState := by
  decide

/-- C6 amended: after the timer is cleared no further scheduled tick fires,
but a response already in flight still runs the full handler when it
resolves: on a successful changed response it fires onUpdate, stores the
new fingerprint, and when the handler changes the interval it calls
setInterval again, reactivating the loop; the code has no in-flight
guard. -/
theorem inflight_response_after_stop (s : PollState) (d : ProgressData)
    (ht : s.timerActive = false) (hs : d.success = true)
    (hf : s.lastStateHash ≠ d.state_hash) :
    (runTrace s [PollInput.ok d]).updates = [] ∧
    (checkProgress s d).updates = [d] ∧
    (checkProgress s d).state.lastStateHash = d.state_hash ∧
    (d.is_complete = false → s.currentPollInterval ≠ 1000 →
      (checkProgress s d).state.timerActive = true) := by
  have h2 : (checkProgress s d).updates = [d] := by
    unfold checkProgress
    rw [if_pos hs, if_pos hf, finishCycle_updates]
  have h3 : (checkProgress s d).state.lastStateHash = d.state_hash := by
    unfold checkProgress
    rw [if_pos hs, if_pos hf, finishCycle_hash, (changeStep_fields s d).2.2]
  have h4 : d.is_complete = false → s.currentPollInterval ≠ 1000 →
      (checkProgress s d).state.timerActive = true := by
    intro hic hne
    unfold checkProgress
    rw [if_pos hs, if_pos hf, finishCycle_timer, if_neg (by simp [hic]),
      changeStep_timer_of_ne d hne]
  exact ⟨by rw [runTrace_inactive s ht], h2, h3, h4⟩

/-- Witness for C6 amended: a stopped poller at the 2000 ms rung receives a
late changed response: no scheduled tick fires, yet the handler notifies,
stores hash B, and reactivates the timer. -/
theorem inflight_response_after_stop_witness :
    (runTrace stoppedSlowState [PollInput.ok (respA "B")]).updates = [] ∧
    (checkProgress stoppedSlowState (respA "B")).updates = [respA "B"] ∧
    (checkProgress stoppedSlowState (respA "B")).state.lastStateHash = some "B" ∧
    (checkProgress stoppedSlowState (respA "B")).state.timerActive = true := by
  have h := inflight_response_after_stop stoppedSlowState (respA "B") rfl rfl (by decide)
  exact ⟨h.1, h.2.1, h.2.2.1, h.2.2.2 rfl (by decide)⟩

/-- A poller mid-run: loop active, hash X stored, streak 4, interval
2000. -/
def activeSession : PollState :=
  { lastStateHash := some "X", noChangeCount := 4, currentPollInterval := 2000,
    timerActive := true }

/-- C7 counterexample: calling startPolling while a loop is active is not a
silent no-op: the poller state is not left untouched, the streak, interval
and stored fingerprint all change. -/
theorem start_while_active_not_noop :
    startPolling activeSession ≠ activeSession ∧
    (startPolling activeSession).noChangeCount ≠ activeSession.noChangeCount ∧
    (startPolling activeSession).currentPollInterval ≠ activeSession.currentPollInterval ∧
    (startPolling activeSession).lastStateHash ≠ activeSession.lastStateHash := by
  decide

/-- C7 amended: calling start while a poll loop is already active cancels
the pre-existing timer and restarts from scratch: lastStateHash returns to
the null sentinel, noChangeCount to 0, the interval to 1000, and a fresh
loop is scheduled immediately. -/
theorem start_while_active_restarts (s : PollState) (h : s.timerActive = true) :
    startPolling s =
      { lastStateHash := none, noChangeCount := 0, currentPollInterval := 1000,
        timerActive := true } := rfl

/-- Witness for C7 amended at the concrete active session. -/
theorem start_while_active_restarts_witness :
    startPolling activeSession =
      { lastStateHash := none, noChangeCount := 0, currentPollInterval := 1000,
        timerActive := true } :=
  start_while_active_restarts activeSession rfl

lemma runTrace_cons (s : PollState) (i : PollInput) (rest : List PollInput) :
    runTrace s (i :: rest) =
      if s.timerActive then
        { final := (runTrace (checkProgressCycle s i).state rest).final,
          updates := (checkProgressCycle s i).updates ++
            (runTrace (checkProgressCycle s i).state rest).updates,
          completions := (if (checkProgressCycle s i).completed then 1 else 0) +
            (runTrace (checkProgressCycle s i).state rest).completions,
          intervalsAt := s.currentPollInterval ::
            (runTrace (checkProgressCycle s i).state rest).intervalsAt,
          intervalsAfter := (checkProgressCycle s i).state.currentPollInterval ::
            (runTrace (checkProgressCycle s i).state rest).intervalsAfter }
      else runTrace s rest := rfl

lemma runTrace_cons_active {s : PollState} (i : PollInput) (rest : List PollInput)
    (h : s.timerActive = true) :
    runTrace s (i :: rest) =
      { final := (runTrace (checkProgressCycle s i).state rest).final,
        updates := (checkProgressCycle s i).updates ++
          (runTrace (checkProgressCycle s i).state rest).updates,
        completions := (if (checkProgressCycle s i).completed then 1 else 0) +
          (runTrace (checkProgressCycle s i).state rest).completions,
        intervalsAt := s.currentPollInterval ::
          (runTrace (checkProgressCycle s i).state rest).intervalsAt,
        intervalsAfter := (checkProgressCycle s i).state.currentPollInterval ::
          (runTrace (checkProgressCycle s i).state rest).intervalsAfter } := by
  rw [runTrace_cons, if_pos h]

lemma runTrace_cons_inactive {s : PollState} (i : PollInput) (rest : List PollInput)
    (h : s.timerActive = false) :
    runTrace s (i :: rest) = runTrace s rest := by
  rw [runTrace_cons, if_neg (by simp [h])]

lemma runTrace_err_skip (s : PollState) (xs ys : List PollInput) :
    (runTrace s (xs ++ PollInput.err :: ys)).final = (runTrace s (xs ++ ys)).final ∧
    (runTrace s (xs ++ PollInput.err :: ys)).updates = (runTrace s (xs ++ ys)).updates ∧
    (runTrace s (xs ++ PollInput.err :: ys)).completions =
      (runTrace s (xs ++ ys)).completions := by
  induction xs generalizing s with
  | nil =>
    simp only [List.nil_append]
    cases h : s.timerActive with
    | true =>
      rw [runTrace_cons_active PollInput.err ys h]
      refine ⟨rfl, rfl, ?_⟩
      show (if (checkProgressCycle s PollInput.err).completed then 1 else 0) +
        (runTrace s ys).completions = (runTrace s ys).completions
      show 0 + (runTrace s ys).completions = (runTrace s ys).completions
      exact Nat.zero_add _
    | false =>
      rw [runTrace_cons_inactive PollInput.err ys h]
      exact ⟨rfl, rfl, rfl⟩
  | cons a t ih =>
    simp only [List.cons_append]
    cases h : s.timerActive with
    | true =>
      rw [runTrace_cons_active a (t ++ PollInput.err :: ys) h,
        runTrace_cons_active a (t ++ ys) h]
      obtain ⟨h1, h2, h3⟩ := ih (checkProgressCycle s a).state
      exact ⟨h1, by rw [h2], by rw [h3]⟩
    | false =>
      rw [runTrace_cons_inactive a (t ++ PollInput.err :: ys) h,
        runTrace_cons_inactive a (t ++ ys) h]
      exact ih s

/-- C8: a transport or parse failure on a single poll runs only the catch
logger: it leaves the entire poller state (streak, interval, fingerprint,
timer) unchanged and invokes no callback, and any run with the failing
poll inserted has the same final state, onUpdate sequence and onComplete
count as the run without it. -/
theorem error_poll_transparent (s : PollState) (xs ys : List PollInput) :
    checkProgressCycle s PollInput.err =
      { state := s, updates := [], completed := false } ∧
    (runTrace s (xs ++ PollInput.err :: ys)).final = (runTrace s (xs ++ ys)).final ∧
    (runTrace s (xs ++ PollInput.err :: ys)).updates = (runTrace s (xs ++ ys)).updates ∧
    (runTrace s (xs ++ PollInput.err :: ys)).completions =
      (runTrace s (xs ++ ys)).completions :=
  ⟨rfl, runTrace_err_skip s xs ys⟩

/-- Which polling loop a live interval timer belongs to: the adaptive bulk
loop of startPolling or the fixed-rate 2000 ms loop of
startIndividualPolling. -/
inductive LoopKind where
  | bulk
  | individual
deriving DecidableEq

/-- The page-level timer picture both pollers act on: the interval timers
currently scheduled (id and owning loop), the single module-global
pollInterval handle variable the two start functions share, and a fresh-id
counter for setInterval. -/
structure PageState where
  live : List (Nat × LoopKind)
  pollInterval : Option Nat
  nextId : Nat
deriving DecidableEq

/-- clearInterval(pollInterval): deschedule the timer the shared handle
names, leaving any other timer alone. -/
def clearIntervalHandle (p : PageState) : PageState :=
  { p with live := p.live.filter (fun t => p.pollInterval != some t.1) }

/-- The timer bookkeeping of startPolling: if (pollInterval)
clearInterval(pollInterval), then setInterval for the bulk loop and store
the new id in the shared handle. -/
def startPollingPage (p : PageState) : PageState :=
  let p1 := if p.pollInterval.isSome then clearIntervalHandle p else p
  { live := (p1.nextId, LoopKind.bulk) :: p1.live,
    pollInterval := some p1.nextId,
    nextId := p1.nextId + 1 }

/-- The timer bookkeeping of startIndividualPolling: if (pollInterval)
clearInterval(pollInterval), then setInterval at 2000 ms for the
individual loop and store the new id in the shared handle. -/
def startIndividualPolling (p : PageState) : PageState :=
  let p1 := if p.pollInterval.isSome then clearIntervalHandle p else p
  { live := (p1.nextId, LoopKind.individual) :: p1.live,
    pollInterval := some p1.nextId,
    nextId := p1.nextId + 1 }

/-- At most one polling loop is live on the page and the shared handle
names it. -/
def singleLoopInv (p : PageState) : Prop :=
  p.live.length ≤ 1 ∧ ∀ t ∈ p.live, p.pollInterval = some t.1

lemma cleared_live_nil (p : PageState) (hp : singleLoopInv p) :
    (if p.pollInterval.isSome then clearIntervalHandle p else p).live = [] := by
  obtain ⟨hlen, href⟩ := hp
  cases hl : p.live with
  | nil =>
    split_ifs <;> simp [clearIntervalHandle, hl]
  | cons t rest =>
    cases rest with
    | cons u r => rw [hl] at hlen; simp at hlen
    | nil =>
      have h1 : p.pollInterval = some t.1 := href t (by rw [hl]; simp)
      rw [if_pos (by rw [h1]; rfl)]
      simp [clearIntervalHandle, hl, h1]

/-- C9: the adaptive bulk poller and the fixed-rate individual poller share
the single module-global pollInterval handle: from any page state
satisfying the single-loop invariant, invoking either start function
cancels whatever loop was running (the other poller, or a previous
instance of the same one) and leaves exactly the starter's loop live, and
the invariant that at most one loop is live is preserved. -/
theorem shared_handle_single_loop (p : PageState) (hp : singleLoopInv p) :
    (startPollingPage p).live.map Prod.snd = [LoopKind.bulk] ∧
    (startIndividualPolling p).live.map Prod.snd = [LoopKind.individual] ∧
    singleLoopInv (startPollingPage p) ∧
    singleLoopInv (startIndividualPolling p) := by
  have hnil := cleared_live_nil p hp
  have hb : (startPollingPage p).live =
      [((if p.pollInterval.isSome then clearIntervalHandle p else p).nextId,
        LoopKind.bulk)] := by
    show ((if p.pollInterval.isSome then clearIntervalHandle p else p).nextId,
        LoopKind.bulk) ::
      (if p.pollInterval.isSome then clearIntervalHandle p else p).live = _
    rw [hnil]
  have hi : (startIndividualPolling p).live =
      [((if p.pollInterval.isSome then clearIntervalHandle p else p).nextId,
        LoopKind.individual)] := by
    show ((if p.pollInterval.isSome then clearIntervalHandle p else p).nextId,
        LoopKind.individual) ::
      (if p.pollInterval.isSome then clearIntervalHandle p else p).live = _
    rw [hnil]
  refine ⟨by rw [hb]; rfl, by rw [hi]; rfl, ⟨by rw [hb]; simp, ?_⟩,
    ⟨by rw [hi]; simp, ?_⟩⟩
  · intro t ht
    rw [hb] at ht
    simp at ht
    subst ht
    rfl
  · intro t ht
    rw [hi] at ht
    simp at ht
    subst ht
    rfl

/-- A page on which the bulk loop is currently running. -/
def pBulkPage : PageState :=
  { live := [(0, LoopKind.bulk)], pollInterval := some 0, nextId := 1 }

/-- Witness for C9 at a page where the bulk loop runs: either start leaves
exactly its own loop live. -/
theorem shared_handle_single_loop_witness :
    (startPollingPage pBulkPage).live.map Prod.snd = [LoopKind.bulk] ∧
    (startIndividualPolling pBulkPage).live.map Prod.snd = [LoopKind.individual] := by
  have h := shared_handle_single_loop pBulkPage
    ⟨by decide, by intro t ht; simp [pBulkPage] at ht; subst ht; rfl⟩
  exact ⟨h.1, h.2.1⟩

end EventoDetail
